import Mathlib

/-!
Verification of the LingoBlanks client (src/index.tsx) against its
natural-language specification.  The program is shallowly embedded: pure
functions become Lean functions over lists of byte values, and the React
component state together with its event handlers becomes an explicit record
type with pure state-transition functions, with the outcomes of the three
external service calls passed in as oracle arguments.
-/

namespace LingoBlanks

/-- Little-endian byte pair written by a DataView.setUint16 call: the value is
masked to 16 bits and stored least significant byte first.  The mask is
absorbed into the byte decomposition, since taking a value mod 65536 does not
change either of the two bytes below. -/
def u16le (v : Nat) : List Nat := [v % 256, v / 256 % 256]

/-- Little-endian byte quadruple written by a DataView.setUint32 call: the
value is masked to 32 bits and stored least significant byte first. -/
def u32le (v : Nat) : List Nat :=
  [v % 256, v / 256 % 256, v / 65536 % 256, v / 16777216 % 256]

/-- Numeric value denoted by a little-endian byte list. -/
def leVal (bs : List Nat) : Nat := bs.foldr (fun b acc => b + 256 * acc) 0

/-- Truncation a DataView setter applies to a JavaScript number before
storing it.  Every number pcmToWav stores is nonnegative, so truncation
toward zero coincides with the floor. -/
def jsTrunc (q : ℚ) : Nat := ⌊q⌋.toNat

/-- Character codes written by writeString(view, 0, the four RIFF letters). -/
def riffBytes : List Nat := [82, 73, 70, 70]

/-- Character codes of the WAVE literal at offset 8. -/
def waveBytes : List Nat := [87, 65, 86, 69]

/-- Character codes of the fmt-space literal at offset 12. -/
def fmtBytes : List Nat := [102, 109, 116, 32]

/-- Character codes of the data literal at offset 36. -/
def dataBytes : List Nat := [100, 97, 116, 97]

/-- Embedding of pcmToWav from src/index.tsx.  The PCM buffer is a list of
byte values; the 44 header bytes are laid out in offset order exactly as the
sequence of DataView writes produces them, followed by the PCM bytes.
blockAlign and byteRate are computed in exact rational arithmetic, matching
the JavaScript double arithmetic on the magnitudes admitted by the theorems
below, and are truncated by the DataView setters via jsTrunc. -/
def pcmToWav (pcmData : List Nat) (sampleRate numChannels bitsPerSample : Nat) :
    List Nat :=
  let dataSize := pcmData.length
  let blockAlign : ℚ := (numChannels * bitsPerSample : ℚ) / 8
  let byteRate : ℚ := (sampleRate : ℚ) * blockAlign
  riffBytes ++ (u32le (36 + dataSize) ++ (waveBytes ++
    (fmtBytes ++ (u32le 16 ++ (u16le 1 ++ (u16le numChannels ++
    (u32le sampleRate ++ (u32le (jsTrunc byteRate) ++ (u16le (jsTrunc blockAlign) ++
    (u16le bitsPerSample ++ (dataBytes ++ (u32le dataSize ++ pcmData))))))))))))

/-- Total swap of the entries at positions i and j of a list, as performed by
the destructuring assignment in shuffleArray.  When either index is out of
range the list is returned unchanged; the loop of shuffleArray only ever
produces in-range indices, so this guard is never taken there. -/
def listSwap (l : List α) (i j : Nat) : List α :=
  match l[i]?, l[j]? with
  | some a, some b => (l.set i b).set j a
  | _, _ => l

/-- Loop of shuffleArray: the first argument is the current loop index i; the
swap partner for index i + 1 is rand (i + 1), modelling
Math.floor(Math.random() * (i + 2)).  The loop body runs for i from
length - 1 down to 1, exactly as in the source. -/
def fyGo (rand : Nat → Nat) : Nat → List α → List α
  | 0, l => l
  | i + 1, l => fyGo rand i (listSwap l (i + 1) (rand (i + 1)))

/-- Embedding of shuffleArray from src/index.tsx.  The source first copies the
input array and then swaps in place; in the list embedding the copy is the
value threaded through fyGo, and the input list is untouched by construction.
The random draws are supplied by the oracle rand. -/
def shuffleArray (l : List α) (rand : Nat → Nat) : List α :=
  fyGo rand (l.length - 1) l

/-- Lesson record from src/index.tsx, the shape of a validated structured
content response. -/
structure Lesson where
  title : String
  languageCode : String
  article : String
  targetWords : List String
  nextTopicSuggestion : String
deriving DecidableEq

/-- Parsed JSON payload of the structured content response before the
targetWords validation; that field may be absent from the parsed object,
which the source detects with a falsiness check. -/
structure LessonData where
  title : String
  languageCode : String
  article : String
  targetWords : Option (List String)
  nextTopicSuggestion : String
deriving DecidableEq

/-- Component state of the App component: one field per useState hook in
src/index.tsx, plus audioSource recording whether the audio source ref holds
a handle. -/
structure AppState where
  language : String
  topic : String
  difficulty : String
  isLoading : Bool
  error : Option String
  lesson : Option Lesson
  lessonImage : Option String
  userAnswers : List String
  isCorrect : List Bool
  showResults : Bool
  shuffledWords : List String
  isAudioLoading : Bool
  isAudioPlaying : Bool
  nextTopicCooldown : Nat
  audioSource : Bool
deriving DecidableEq

/-- Message format produced by the generateLesson catch handler. -/
def genErrMsg (m : String) : String :=
  "An error occurred: " ++ m ++ ". Please try again."

/-- Message of the Error thrown when targetWords is absent or empty. -/
def invalidLessonMsg : String :=
  "API returned invalid lesson data (missing target words)."

/-- Embedding of generateLesson from src/index.tsx as a state transition.
The structured content call is summarised by contentResp: an error value
covers both a rejected request and a JSON parse failure, an ok value is the
parsed object.  The image call is summarised by imageResp carrying the base64
image bytes on success.  The random draws of shuffleArray come from rand.
The function mirrors the source order: clear lesson state and set the busy
flag, validate targetWords (throwing into the catch handler when absent or
empty), install the lesson and derived exercise state, attempt the image, and
in the finally block clear the busy flag and start the 5 second cooldown. -/
def generateLesson (s : AppState) (contentResp : Except String LessonData)
    (imageResp : Except String String) (rand : Nat → Nat) : AppState :=
  let s1 : AppState :=
    { s with isLoading := true, error := none, lesson := none,
             lessonImage := none, showResults := false }
  let s2 : AppState :=
    match contentResp with
    | .error msg => { s1 with error := some (genErrMsg msg) }
    | .ok d =>
      match d.targetWords with
      | none => { s1 with error := some (genErrMsg invalidLessonMsg) }
      | some ws =>
        if ws.length = 0 then
          { s1 with error := some (genErrMsg invalidLessonMsg) }
        else
          let lesson : Lesson :=
            { title := d.title, languageCode := d.languageCode,
              article := d.article, targetWords := ws,
              nextTopicSuggestion := d.nextTopicSuggestion }
          let s3 : AppState :=
            { s1 with lesson := some lesson,
                      userAnswers := List.replicate ws.length "",
                      isCorrect := [],
                      shuffledWords := shuffleArray ws rand }
          match imageResp with
          | .ok b64 =>
            { s3 with lessonImage := some ("data:image/jpeg;base64," ++ b64) }
          | .error msg => { s3 with error := some (genErrMsg msg) }
  { s2 with isLoading := false, nextTopicCooldown := 5 }

/-- Outcome of one handleListen run, covering the three failure steps the
spec names (request failure, missing audio payload, decode failure) and the
success case carrying the raw PCM bytes. -/
inductive TtsOutcome where
  | requestFailure (msg : String)
  | missingPayload
  | decodeFailure (msg : String)
  | success (pcm : List Nat)
deriving DecidableEq

/-- Predicate selecting the failing outcomes of a handleListen run. -/
def TtsOutcome.isFailure : TtsOutcome → Bool
  | .success _ => false
  | _ => true

/-- Embedding of handleListen from src/index.tsx.  The guard returns at once
when audio is loading or playing or no lesson is loaded.  Otherwise the
loading flag is set and the error cleared; a throw at any later step (the
request itself, the missing payload check, atob, decodeAudioData or start)
lands in the catch handler, which stores the message, and the finally
handler, which clears the loading flag.  On success the new source handle is
recorded and the playing flag set. -/
def handleListen (s : AppState) (o : TtsOutcome) : AppState :=
  if s.isAudioLoading || s.isAudioPlaying || s.lesson.isNone then s
  else
    let s1 : AppState := { s with isAudioLoading := true, error := none }
    match o with
    | .requestFailure msg =>
      { s1 with error := some ("Failed to play audio: " ++ msg),
                isAudioLoading := false }
    | .missingPayload =>
      { s1 with
        error := some ("Failed to play audio: No audio data returned from API."),
        isAudioLoading := false }
    | .decodeFailure msg =>
      { s1 with error := some ("Failed to play audio: " ++ msg),
                isAudioLoading := false }
    | .success _ =>
      { s1 with audioSource := true, isAudioPlaying := true,
                isAudioLoading := false }

/-- Embedding of handleAnswerChange from src/index.tsx: a no-op once results
are shown, otherwise a copy of userAnswers with the entry at index replaced.
The handler is only invoked with indices below the answer count, where
List.set coincides with the JavaScript element assignment. -/
def handleAnswerChange (s : AppState) (index : Nat) (value : String) :
    AppState :=
  if s.showResults then s
  else { s with userAnswers := s.userAnswers.set index value }

/-- Embedding of the JavaScript String.prototype.trim: surrounding
whitespace characters removed from both ends. -/
def jsTrim (s : String) : String :=
  String.mk (((s.data.dropWhile Char.isWhitespace).reverse.dropWhile
    Char.isWhitespace).reverse)

/-- Embedding of the JavaScript String.prototype.toLowerCase, characterwise
lowering; it agrees with the source on the ASCII data exercised here. -/
def jsToLower (s : String) : String := String.mk (s.data.map Char.toLower)

/-- Loop of handleCheckAnswers: the map over userAnswers with index, each
entry compared to the target word at the same index after trim and
toLowerCase on both sides. -/
def checkLoop (targetWords : List String) : Nat → List String → List Bool
  | _, [] => []
  | i, a :: rest =>
    (jsToLower (jsTrim a) == jsToLower (jsTrim (targetWords.getD i ""))) ::
      checkLoop targetWords (i + 1) rest

/-- Embedding of handleCheckAnswers from src/index.tsx. -/
def handleCheckAnswers (s : AppState) : AppState :=
  match s.lesson with
  | none => s
  | some l =>
    { s with isCorrect := checkLoop l.targetWords 0 s.userAnswers,
             showResults := true }

/-- Embedding of handleNextTopic from src/index.tsx: when the loaded lesson
has a truthy (nonempty) nextTopicSuggestion and the cooldown is zero, the
topic is set to the suggestion and generateLesson runs for it; otherwise
nothing happens.  The handler itself does not consult showResults. -/
def handleNextTopic (s : AppState) (contentResp : Except String LessonData)
    (imageResp : Except String String) (rand : Nat → Nat) : AppState :=
  match s.lesson with
  | some l =>
    if l.nextTopicSuggestion ≠ "" ∧ s.nextTopicCooldown = 0 then
      generateLesson { s with topic := l.nextTopicSuggestion }
        contentResp imageResp rand
    else s
  | none => s

/-- Opening brace character, written by code point to keep brace literals out
of strings. -/
def lbrace : Char := Char.ofNat 123

/-- Closing brace character. -/
def rbrace : Char := Char.ofNat 125

/-- Leftmost match of the placeholder regex (two opening braces, one or more
characters other than a closing brace, two closing braces) at the head of the
character list: on success, the matched span and the remainder.  The second
alternative of the source regex, the literal word marker, is subsumed by the
first, so only the first is modelled. -/
def matchPH : List Char → Option (List Char × List Char)
  | c1 :: c2 :: tl =>
    if c1 = lbrace ∧ c2 = lbrace then
      match tl.takeWhile (fun c => c ≠ rbrace),
            tl.dropWhile (fun c => c ≠ rbrace) with
      | [], _ => none
      | _ :: _, d1 :: d2 :: rest =>
        if d2 = rbrace then
          some (c1 :: c2 :: (tl.takeWhile (fun c => c ≠ rbrace) ++ [d1, d2]),
            rest)
        else none
      | _ :: _, _ => none
    else none
  | _ => none

/-- Embedding of the String.split call of renderArticle with the capture
group kept: the parts between matches, including empty parts at the start,
end or between adjacent matches, interleaved with the matched spans, exactly
as the JavaScript split with a capturing group returns them.  The accumulator
holds the pending text part reversed. -/
def splitGo (acc : List Char) (cs : List Char) : List (List Char) :=
  match h : matchPH cs with
  | some (m, rest) => acc.reverse :: m :: splitGo [] rest
  | none =>
    match cs with
    | [] => [acc.reverse]
    | c :: cs1 => splitGo (c :: acc) cs1
termination_by cs.length
decreasing_by
  · rcases cs with _ | ⟨c1, _ | ⟨c2, tl⟩⟩
    · simp [matchPH] at h
    · simp [matchPH] at h
    · simp only [matchPH] at h
      split at h
      · rcases htk : tl.takeWhile (fun c => c ≠ rbrace) with _ | ⟨r1, run⟩ <;>
          rcases hdw : tl.dropWhile (fun c => c ≠ rbrace) with
            _ | ⟨d1, _ | ⟨d2, rest2⟩⟩ <;>
          simp only [htk, hdw] at h <;> simp at h
        obtain ⟨hd2, hm, hrest⟩ := h
        subst hrest
        have hlen : tl.length = (tl.takeWhile (fun c => c ≠ rbrace)).length +
            (tl.dropWhile (fun c => c ≠ rbrace)).length := by
          rw [← List.length_append, List.takeWhile_append_dropWhile]
        rw [htk, hdw] at hlen
        simp at hlen
        simp
        omega
      · simp at h
  · simp

/-- Test applied by renderArticle to each part: startsWith of a double
opening brace and endsWith of a double closing brace. -/
def isPHPart (p : List Char) : Bool :=
  [lbrace, lbrace].isPrefixOf p && [rbrace, rbrace].isSuffixOf p

/-- Rendered node of the article paragraph: either a text input bound to the
answer slot idx, carrying the displayed value and whether it is disabled, or
a plain text run.  Empty text parts render as nothing and produce no
segment. -/
inductive Segment where
  | input (idx : Nat) (value : String) (disabled : Bool)
  | text (s : String)
deriving DecidableEq

/-- Embedding of the parts.map loop of renderArticle, with the running
inputIndex counter threaded through: placeholder parts consume the counter in
left to right order, empty parts render nothing, other parts render as
text. -/
def renderParts (showResults : Bool) (userAnswers : List String) :
    Nat → List (List Char) → List Segment
  | _, [] => []
  | k, p :: ps =>
    if isPHPart p then
      Segment.input k (userAnswers.getD k "") showResults ::
        renderParts showResults userAnswers (k + 1) ps
    else if p.isEmpty then renderParts showResults userAnswers k ps
    else Segment.text (String.mk p) :: renderParts showResults userAnswers k ps

/-- Embedding of renderArticle from src/index.tsx: none when no lesson is
loaded, otherwise the rendered segment list of the split article. -/
def renderArticle (s : AppState) : Option (List Segment) :=
  match s.lesson with
  | none => none
  | some l =>
    some (renderParts s.showResults s.userAnswers 0 (splitGo [] l.article.data))

/-- Answer-slot bindings of a rendered segment list, in document order: the
index each input is wired to and the value it displays. -/
def inputBindings (segs : List Segment) : List (Nat × String) :=
  segs.filterMap fun seg =>
    match seg with
    | .input i v _ => some (i, v)
    | .text _ => none

/-- Initial component state of a fresh session with no stored preferences:
the useState defaults of src/index.tsx. -/
def initState : AppState :=
  { language := "Spanish", topic := "ordering food at a restaurant",
    difficulty := "normal", isLoading := false, error := none, lesson := none,
    lessonImage := none, userAnswers := [], isCorrect := [],
    showResults := false, shuffledWords := [], isAudioLoading := false,
    isAudioPlaying := false, nextTopicCooldown := 0, audioSource := false }

/-- Article of the specification scenario, with one placeholder marker. -/
def sampleArticle : String :=
  "I eat " ++ String.mk [lbrace, lbrace] ++ "word" ++
    String.mk [rbrace, rbrace] ++ " every day."

/-- Lesson of the specification scenario with targetWords bread. -/
def breadLesson : Lesson :=
  { title := "Food", languageCode := "en-US", article := sampleArticle,
    targetWords := ["bread"], nextTopicSuggestion := "drinks" }

/-- State presenting the bread lesson with the answer Bread typed in. -/
def breadState : AppState :=
  { initState with lesson := some breadLesson, userAnswers := ["Bread"] }

/-- Lesson whose single target word is paris. -/
def parisLesson : Lesson :=
  { title := "Capitals", languageCode := "fr-FR", article := "X",
    targetWords := ["paris"], nextTopicSuggestion := "rivers" }

/-- State presenting the paris lesson with a padded, capitalised answer. -/
def parisState : AppState :=
  { initState with lesson := some parisLesson, userAnswers := [" Paris "] }

/-- State with a loaded lesson, results not yet shown and zero cooldown. -/
def c6State : AppState := { initState with lesson := some breadLesson }

/-- State like c6State but with three seconds of cooldown remaining. -/
def c6bState : AppState := { c6State with nextTopicCooldown := 3 }

theorem jsTrunc_natCast_div (m n : Nat) :
    jsTrunc ((m : ℚ) / (n : ℚ)) = m / n := by
  unfold jsTrunc
  rw [Int.floor_toNat]
  exact Nat.floor_div_eq_div m n

theorem jsTrunc_blockAlign (nc bps : Nat) :
    jsTrunc ((nc * bps : ℚ) / 8) = nc * bps / 8 := by
  have hm : ((nc * bps : ℚ)) = (((nc * bps : Nat)) : ℚ) := by push_cast; ring
  have h8 : ((8 : ℚ)) = (((8 : Nat)) : ℚ) := by norm_num
  rw [hm, h8, jsTrunc_natCast_div]

theorem jsTrunc_byteRate (sr nc bps : Nat) :
    jsTrunc ((sr : ℚ) * ((nc * bps : ℚ) / 8)) = sr * nc * bps / 8 := by
  have h : (sr : ℚ) * ((nc * bps : ℚ) / 8)
      = (((sr * nc * bps : Nat)) : ℚ) / (((8 : Nat)) : ℚ) := by
    push_cast; ring
  rw [h, jsTrunc_natCast_div]

theorem leVal_u16 (v : Nat) (h : v < 65536) : leVal (u16le v) = v := by
  simp only [u16le, leVal, List.foldr]
  omega

theorem leVal_u32 (v : Nat) (h : v < 4294967296) : leVal (u32le v) = v := by
  simp only [u32le, leVal, List.foldr]
  omega

/-- C1: pcmToWav returns 44 + L bytes; offsets 0 to 3, 8 to 11, 12 to 15 and
36 to 39 carry the four chunk literals, the remaining header fields carry the
little-endian encodings of 36 + L, 16, 1, numChannels, sampleRate, byteRate,
blockAlign, bitsPerSample and L, and the bytes from offset 44 are the PCM
input verbatim.  The divisions in byteRate and blockAlign are the floor
divisions the DataView setters apply to the JavaScript quotient, and the
bound hypotheses keep each field inside the width of its slot. -/
theorem C1_pcmToWav_layout (pcm : List Nat) (sr nc bps : Nat)
    (hsr : sr < 4294967296) (hnc : nc < 65536) (hbps : bps < 65536)
    (hba : nc * bps / 8 < 65536) (hbr : sr * nc * bps / 8 < 4294967296)
    (hL : 36 + pcm.length < 4294967296) :
    (pcmToWav pcm sr nc bps).length = 44 + pcm.length ∧
    (pcmToWav pcm sr nc bps).take 4 = riffBytes ∧
    ((pcmToWav pcm sr nc bps).drop 8).take 4 = waveBytes ∧
    ((pcmToWav pcm sr nc bps).drop 12).take 4 = fmtBytes ∧
    ((pcmToWav pcm sr nc bps).drop 36).take 4 = dataBytes ∧
    leVal (((pcmToWav pcm sr nc bps).drop 4).take 4) = 36 + pcm.length ∧
    leVal (((pcmToWav pcm sr nc bps).drop 16).take 4) = 16 ∧
    leVal (((pcmToWav pcm sr nc bps).drop 20).take 2) = 1 ∧
    leVal (((pcmToWav pcm sr nc bps).drop 22).take 2) = nc ∧
    leVal (((pcmToWav pcm sr nc bps).drop 24).take 4) = sr ∧
    leVal (((pcmToWav pcm sr nc bps).drop 28).take 4) = sr * nc * bps / 8 ∧
    leVal (((pcmToWav pcm sr nc bps).drop 32).take 2) = nc * bps / 8 ∧
    leVal (((pcmToWav pcm sr nc bps).drop 34).take 2) = bps ∧
    leVal (((pcmToWav pcm sr nc bps).drop 40).take 4) = pcm.length ∧
    (pcmToWav pcm sr nc bps).drop 44 = pcm := by
  have hlen : (pcmToWav pcm sr nc bps).length = 44 + pcm.length := by
    simp [pcmToWav, riffBytes, waveBytes, fmtBytes, dataBytes, u16le, u32le]
    omega
  have h4 : ((pcmToWav pcm sr nc bps).drop 4).take 4
      = u32le (36 + pcm.length) := rfl
  have h16 : ((pcmToWav pcm sr nc bps).drop 16).take 4 = u32le 16 := rfl
  have h20 : ((pcmToWav pcm sr nc bps).drop 20).take 2 = u16le 1 := rfl
  have h22 : ((pcmToWav pcm sr nc bps).drop 22).take 2 = u16le nc := rfl
  have h24 : ((pcmToWav pcm sr nc bps).drop 24).take 4 = u32le sr := rfl
  have h28 : ((pcmToWav pcm sr nc bps).drop 28).take 4
      = u32le (jsTrunc ((sr : ℚ) * ((nc * bps : ℚ) / 8))) := rfl
  have h32 : ((pcmToWav pcm sr nc bps).drop 32).take 2
      = u16le (jsTrunc ((nc * bps : ℚ) / 8)) := rfl
  have h34 : ((pcmToWav pcm sr nc bps).drop 34).take 2 = u16le bps := rfl
  have h40 : ((pcmToWav pcm sr nc bps).drop 40).take 4
      = u32le pcm.length := rfl
  refine ⟨hlen, rfl, rfl, rfl, rfl, ?_, ?_, ?_, ?_, ?_, ?_, ?_, ?_, ?_, rfl⟩
  · rw [h4]; exact leVal_u32 _ hL
  · rw [h16]; exact leVal_u32 16 (by norm_num)
  · rw [h20]; exact leVal_u16 1 (by norm_num)
  · rw [h22]; exact leVal_u16 nc hnc
  · rw [h24]; exact leVal_u32 sr hsr
  · rw [h28, jsTrunc_byteRate]; exact leVal_u32 _ hbr
  · rw [h32, jsTrunc_blockAlign]; exact leVal_u16 _ hba
  · rw [h34]; exact leVal_u16 bps hbps
  · rw [h40]; exact leVal_u32 _ (by omega)

/-- Witness for C1 at the fixed parameters handleListen passes, on a three
byte PCM buffer. -/
theorem C1_pcmToWav_layout_witness :
    (pcmToWav [1, 2, 3] 24000 1 16).length = 47 ∧
    leVal (((pcmToWav [1, 2, 3] 24000 1 16).drop 24).take 4) = 24000 ∧
    leVal (((pcmToWav [1, 2, 3] 24000 1 16).drop 28).take 4) = 48000 ∧
    (pcmToWav [1, 2, 3] 24000 1 16).drop 44 = [1, 2, 3] := by
  obtain ⟨h1, h2, h3, h4, h5, h6, h7, h8, h9, h10, h11, h12, h13, h14, h15⟩ :=
    C1_pcmToWav_layout [1, 2, 3] 24000 1 16 (by decide) (by decide) (by decide)
      (by decide) (by decide) (by decide)
  exact ⟨h1, h10, h11, h15⟩

theorem cons_set_perm (a : α) :
    ∀ (t : List α) (k : Nat) (b : α), t[k]? = some b →
      (b :: t.set k a).Perm (a :: t) := by
  intro t
  induction t with
  | nil => intro k b h; simp at h
  | cons c t ih =>
    intro k b h
    cases k with
    | zero =>
      simp at h
      subst h
      show (c :: a :: t).Perm (a :: c :: t)
      exact List.Perm.swap a c t
    | succ k =>
      simp at h
      show (b :: c :: t.set k a).Perm (a :: c :: t)
      have h1 : (b :: c :: t.set k a).Perm (c :: b :: t.set k a) :=
        List.Perm.swap c b _
      have h2 : (c :: b :: t.set k a).Perm (c :: a :: t) :=
        List.Perm.cons c (ih k b h)
      have h3 : (c :: a :: t).Perm (a :: c :: t) := List.Perm.swap a c t
      exact (h1.trans h2).trans h3

theorem set_set_perm :
    ∀ (l : List α) (i j : Nat) (a b : α), l[i]? = some a → l[j]? = some b →
      ((l.set i b).set j a).Perm l := by
  intro l
  induction l with
  | nil => intro i j a b h _; simp at h
  | cons c t ih =>
    intro i j a b hi hj
    cases i with
    | zero =>
      simp at hi
      cases j with
      | zero =>
        simp at hj
        subst hi; subst hj
        show (c :: t).Perm (c :: t)
        exact List.Perm.refl _
      | succ j =>
        simp at hj
        subst hi
        show (b :: t.set j c).Perm (c :: t)
        exact cons_set_perm c t j b hj
    | succ i =>
      simp at hi
      cases j with
      | zero =>
        simp at hj
        subst hj
        show (a :: t.set i c).Perm (c :: t)
        exact cons_set_perm c t i a hi
      | succ j =>
        simp at hj
        show (c :: (t.set i b).set j a).Perm (c :: t)
        exact List.Perm.cons c (ih i j a b hi hj)

theorem listSwap_perm (l : List α) (i j : Nat) : (listSwap l i j).Perm l := by
  rcases hi : l[i]? with _ | a
  · simp [listSwap, hi]
  · rcases hj : l[j]? with _ | b
    · simp [listSwap, hi, hj]
    · simpa [listSwap, hi, hj] using set_set_perm l i j a b hi hj

theorem fyGo_perm (rand : Nat → Nat) :
    ∀ (n : Nat) (l : List α), (fyGo rand n l).Perm l := by
  intro n
  induction n with
  | zero => intro l; exact List.Perm.refl l
  | succ n ih =>
    intro l
    exact (ih (listSwap l (n + 1) (rand (n + 1)))).trans
      (listSwap_perm l (n + 1) (rand (n + 1)))

/-- C9: shuffleArray returns a permutation of its input, hence a sequence of
the same length with the same multiset of elements, for every sequence of
random draws.  The embedding is a pure function, matching the source, which
copies the input array before swapping in place and so never mutates its
argument. -/
theorem C9_shuffleArray_perm {α : Type _} (l : List α) (rand : Nat → Nat) :
    (shuffleArray l rand).Perm l ∧ (shuffleArray l rand).length = l.length := by
  have h := fyGo_perm rand (l.length - 1) l
  exact ⟨h, h.length_eq⟩

/-- C2: on a parsed structured content response, generateLesson fails with
the content generation error exactly when targetWords is absent or empty; a
response with nonempty targetWords is installed as the Lesson whatever the
relation between its word count and the placeholder count of the article. -/
theorem C2_generateLesson_validation (s : AppState) (d : LessonData)
    (imageResp : Except String String) (rand : Nat → Nat) :
    ((generateLesson s (.ok d) imageResp rand).lesson = none ↔
      d.targetWords = none ∨ d.targetWords = some []) ∧
    ((d.targetWords = none ∨ d.targetWords = some []) →
      (generateLesson s (.ok d) imageResp rand).error =
        some (genErrMsg invalidLessonMsg)) ∧
    (∀ ws, d.targetWords = some ws → ws ≠ [] →
      (generateLesson s (.ok d) imageResp rand).lesson =
        some { title := d.title, languageCode := d.languageCode,
               article := d.article, targetWords := ws,
               nextTopicSuggestion := d.nextTopicSuggestion }) := by
  rcases d with ⟨t, lc, art, tw, nxt⟩
  rcases tw with _ | ws
  · rcases imageResp with msg | b64 <;> simp [generateLesson]
  · rcases ws with _ | ⟨w, ws⟩
    · rcases imageResp with msg | b64 <;> simp [generateLesson]
    · rcases imageResp with msg | b64 <;> simp [generateLesson]

/-- Witness for C2: a one word response is accepted as a Lesson even though
its article has no placeholder at all. -/
theorem C2_generateLesson_validation_witness :
    (generateLesson initState
      (.ok { title := "T", languageCode := "en-US", article := "no blanks",
             targetWords := some ["a"], nextTopicSuggestion := "N" })
      (.ok "img") (fun _ => 0)).lesson =
      some { title := "T", languageCode := "en-US", article := "no blanks",
             targetWords := ["a"], nextTopicSuggestion := "N" } :=
  (C2_generateLesson_validation initState
    { title := "T", languageCode := "en-US", article := "no blanks",
      targetWords := some ["a"], nextTopicSuggestion := "N" }
    (.ok "img") (fun _ => 0)).2.2 ["a"] rfl (by decide)

/-- Counterexample to C3 as stated: when the image step fails after the
Lesson was produced, the failure is not silent — the image request runs
inside the same try block and its rejection reaches the shared catch
handler, which surfaces a user visible error message. -/
theorem C3_image_failure_cex :
    (generateLesson initState
      (.ok { title := "T", languageCode := "es-ES", article := "A",
             targetWords := some ["w"], nextTopicSuggestion := "N" })
      (.error "Image generation failed") (fun _ => 0)).lesson ≠ none ∧
    (generateLesson initState
      (.ok { title := "T", languageCode := "es-ES", article := "A",
             targetWords := some ["w"], nextTopicSuggestion := "N" })
      (.error "Image generation failed") (fun _ => 0)).error =
      some "An error occurred: Image generation failed. Please try again." :=
  ⟨by decide, by decide⟩

/-- C3 amended: when the content step succeeds with nonempty targetWords and
the image step then fails, the produced Lesson and its derived exercise
state stay in place and the image stays absent, but the failure is not
silently absorbed: the shared catch handler stores the image error message,
which is user visible. -/
theorem C3_image_failure_keeps_lesson (s : AppState) (d : LessonData)
    (ws : List String) (msg : String) (rand : Nat → Nat)
    (hws : d.targetWords = some ws) (hne : ws ≠ []) :
    (generateLesson s (.ok d) (.error msg) rand).lesson =
      some { title := d.title, languageCode := d.languageCode,
             article := d.article, targetWords := ws,
             nextTopicSuggestion := d.nextTopicSuggestion } ∧
    (generateLesson s (.ok d) (.error msg) rand).lessonImage = none ∧
    (generateLesson s (.ok d) (.error msg) rand).error =
      some (genErrMsg msg) ∧
    (generateLesson s (.ok d) (.error msg) rand).userAnswers =
      List.replicate ws.length "" ∧
    (generateLesson s (.ok d) (.error msg) rand).isCorrect = [] ∧
    (generateLesson s (.ok d) (.error msg) rand).shuffledWords =
      shuffleArray ws rand ∧
    (generateLesson s (.ok d) (.error msg) rand).isLoading = false ∧
    (generateLesson s (.ok d) (.error msg) rand).nextTopicCooldown = 5 := by
  rcases d with ⟨t, lc, art, tw, nxt⟩
  simp only at hws
  subst hws
  rcases ws with _ | ⟨w, ws⟩
  · exact absurd rfl hne
  · simp [generateLesson]

/-- Witness for C3 amended, at a concrete failing image call. -/
theorem C3_image_failure_keeps_lesson_witness :
    (generateLesson initState
      (.ok { title := "T", languageCode := "es-ES", article := "A",
             targetWords := some ["w"], nextTopicSuggestion := "N" })
      (.error "boom") (fun _ => 0)).lesson =
      some { title := "T", languageCode := "es-ES", article := "A",
             targetWords := ["w"], nextTopicSuggestion := "N" } ∧
    (generateLesson initState
      (.ok { title := "T", languageCode := "es-ES", article := "A",
             targetWords := some ["w"], nextTopicSuggestion := "N" })
      (.error "boom") (fun _ => 0)).lessonImage = none :=
  ⟨(C3_image_failure_keeps_lesson initState _ ["w"] "boom" (fun _ => 0) rfl
      (by decide)).1,
   (C3_image_failure_keeps_lesson initState _ ["w"] "boom" (fun _ => 0) rfl
      (by decide)).2.1⟩

theorem checkLoop_length (tw : List String) :
    ∀ (k : Nat) (ua : List String), (checkLoop tw k ua).length = ua.length := by
  intro k ua
  induction ua generalizing k with
  | nil => simp [checkLoop]
  | cons a rest ih => simp [checkLoop, ih]

theorem checkLoop_getElem? (tw : List String) :
    ∀ (ua : List String) (k i : Nat), i < ua.length →
      (checkLoop tw k ua)[i]? =
        some (jsToLower (jsTrim (ua.getD i "")) ==
          jsToLower (jsTrim (tw.getD (k + i) ""))) := by
  intro ua
  induction ua with
  | nil => intro k i h; simp at h
  | cons a rest ih =>
    intro k i h
    cases i with
    | zero => simp [checkLoop]
    | succ i =>
      have h2 : i < rest.length := by simpa using h
      have := ih (k + 1) i h2
      simpa [checkLoop, Nat.add_assoc, Nat.add_comm 1 i] using this

/-- C4: handleCheckAnswers sets revealed and computes entry i of isCorrect
as the case insensitive, whitespace trimmed equality of userAnswers i and
targetWords i, for every index of an answer list aligned with the target
words. -/
theorem C4_handleCheckAnswers (s : AppState) (l : Lesson)
    (hl : s.lesson = some l)
    (hlen : s.userAnswers.length = l.targetWords.length) :
    (handleCheckAnswers s).showResults = true ∧
    (handleCheckAnswers s).isCorrect.length = s.userAnswers.length ∧
    (∀ i, i < s.userAnswers.length →
      ((handleCheckAnswers s).isCorrect[i]? = some true ↔
        jsToLower (jsTrim (s.userAnswers.getD i "")) =
          jsToLower (jsTrim (l.targetWords.getD i "")))) := by
  refine ⟨by simp [handleCheckAnswers, hl], by simp [handleCheckAnswers, hl, checkLoop_length], ?_⟩
  intro i hi
  have h := checkLoop_getElem? l.targetWords s.userAnswers 0 i hi
  simp only [Nat.zero_add] at h
  simp [handleCheckAnswers, hl, h]

/-- Witness for C4: the Bread answer matches the bread target, and the
padded Paris answer matches the paris target. -/
theorem C4_handleCheckAnswers_witness :
    (handleCheckAnswers breadState).isCorrect[0]? = some true ∧
    (handleCheckAnswers parisState).isCorrect[0]? = some true :=
  ⟨((C4_handleCheckAnswers breadState breadLesson rfl rfl).2.2 0
      (by decide)).mpr (by decide),
   ((C4_handleCheckAnswers parisState parisLesson rfl rfl).2.2 0
      (by decide)).mpr (by decide)⟩

theorem inputBindings_renderParts (res : Bool) (ua : List String) :
    ∀ (ps : List (List Char)) (k : Nat),
      inputBindings (renderParts res ua k ps) =
        (List.range' k (ps.countP (fun p => isPHPart p))).map
          (fun i => (i, ua.getD i "")) := by
  intro ps
  induction ps with
  | nil => intro k; rfl
  | cons p ps ih =>
    intro k
    by_cases hp : isPHPart p
    · rw [show (p :: ps).countP (fun p => isPHPart p) =
          ps.countP (fun p => isPHPart p) + 1 from
          List.countP_cons_of_pos _ _ hp,
        List.range'_succ, List.map_cons]
      simp only [renderParts]
      rw [if_pos hp]
      simp only [inputBindings, List.filterMap_cons] at ih ⊢
      exact congrArg (List.cons (k, ua.getD k "")) (ih (k + 1))
    · rw [show (p :: ps).countP (fun p => isPHPart p) =
          ps.countP (fun p => isPHPart p) from
          List.countP_cons_of_neg _ _ hp]
      simp only [renderParts]
      rw [if_neg hp]
      by_cases he : p.isEmpty
      · rw [if_pos he]
        exact ih k
      · rw [if_neg he]
        simp only [inputBindings, List.filterMap_cons] at ih ⊢
        exact ih k

/-- C5: renderArticle splits the article on placeholder marker spans and
binds the placeholders, in document order, to consecutive answer slots
starting at zero: the rendered inputs carry exactly the bindings (0, answer
0), (1, answer 1), ..., one per placeholder part, whatever the literal text
inside each marker and whatever the article. -/
theorem C5_renderArticle_binding (s : AppState) (l : Lesson)
    (hl : s.lesson = some l) :
    renderArticle s = some (renderParts s.showResults s.userAnswers 0
      (splitGo [] l.article.data)) ∧
    inputBindings (renderParts s.showResults s.userAnswers 0
      (splitGo [] l.article.data)) =
      (List.range ((splitGo [] l.article.data).countP
        (fun p => isPHPart p))).map (fun i => (i, s.userAnswers.getD i "")) := by
  refine ⟨by simp [renderArticle, hl], ?_⟩
  rw [inputBindings_renderParts, List.range_eq_range']

/-- Witness for C5 at the bread lesson state. -/
theorem C5_renderArticle_binding_witness :
    inputBindings (renderParts breadState.showResults breadState.userAnswers 0
      (splitGo [] breadLesson.article.data)) =
      (List.range ((splitGo [] breadLesson.article.data).countP
        (fun p => isPHPart p))).map
          (fun i => (i, breadState.userAnswers.getD i "")) :=
  (C5_renderArticle_binding breadState breadLesson rfl).2

/-- Counterexample to C6 as stated: handleNextTopic does not consult the
revealed flag; with a lesson loaded, a nonempty suggestion and zero
cooldown it performs the topic change even though showResults is false. -/
theorem C6_handleNextTopic_cex :
    c6State.showResults = false ∧
    c6State.topic ≠ "drinks" ∧
    (handleNextTopic c6State (.error "e") (.error "e") (fun _ => 0)).topic =
      "drinks" :=
  ⟨by decide, by decide, by decide⟩

/-- C6 amended: handleNextTopic performs the topic change (topic set to the
suggestion, generateLesson run on it) exactly when a lesson with a nonempty
nextTopicSuggestion is loaded and the cooldown is zero; the handler does not
consult the revealed flag (the UI only hides the button until results are
shown).  Whenever the cooldown is positive, no lesson is loaded, or the
suggestion is empty, the call changes no state.  Every generateLesson call
ends with the cooldown set to 5, whatever its outcome. -/
theorem C6_handleNextTopic_guard :
    (∀ (s : AppState) (c : Except String LessonData)
      (i : Except String String) (r : Nat → Nat),
      s.nextTopicCooldown ≠ 0 → handleNextTopic s c i r = s) ∧
    (∀ (s : AppState) (c : Except String LessonData)
      (i : Except String String) (r : Nat → Nat),
      s.lesson = none → handleNextTopic s c i r = s) ∧
    (∀ (s : AppState) (l : Lesson) (c : Except String LessonData)
      (i : Except String String) (r : Nat → Nat), s.lesson = some l →
      l.nextTopicSuggestion = "" → handleNextTopic s c i r = s) ∧
    (∀ (s : AppState) (l : Lesson) (c : Except String LessonData)
      (i : Except String String) (r : Nat → Nat), s.lesson = some l →
      l.nextTopicSuggestion ≠ "" → s.nextTopicCooldown = 0 →
      handleNextTopic s c i r =
        generateLesson { s with topic := l.nextTopicSuggestion } c i r) ∧
    (∀ (s : AppState) (c : Except String LessonData)
      (i : Except String String) (r : Nat → Nat),
      (generateLesson s c i r).nextTopicCooldown = 5) := by
  refine ⟨?_, ?_, ?_, ?_, ?_⟩
  · intro s c i r h
    rcases hl : s.lesson with _ | l <;> simp [handleNextTopic, hl, h]
  · intro s c i r h
    simp [handleNextTopic, h]
  · intro s l c i r hl hsug
    simp [handleNextTopic, hl, hsug]
  · intro s l c i r hl hsug hcd
    simp [handleNextTopic, hl, hsug, hcd]
  · intro s c i r
    rfl

/-- Witness for C6 amended: with three seconds of cooldown remaining the
call changes nothing. -/
theorem C6_handleNextTopic_guard_witness :
    handleNextTopic c6bState (.error "e") (.error "e") (fun _ => 0) =
      c6bState :=
  C6_handleNextTopic_guard.1 c6bState (.error "e") (.error "e") (fun _ => 0)
    (by decide)

/-- C7: a handleListen run that passes the entry guard and then fails at any
step — request failure, missing audio payload, or decode failure — ends with
a surfaced error message, the audio loading flag cleared, and the playing
flag not set. -/
theorem C7_handleListen_failure (s : AppState) (l : Lesson) (o : TtsOutcome)
    (hg1 : s.isAudioLoading = false) (hg2 : s.isAudioPlaying = false)
    (hl : s.lesson = some l) (ho : o.isFailure = true) :
    (handleListen s o).error ≠ none ∧
    (handleListen s o).isAudioLoading = false ∧
    (handleListen s o).isAudioPlaying = false := by
  rcases o with msg | _ | msg | pcm <;> simp [TtsOutcome.isFailure] at ho <;>
    simp [handleListen, hg1, hg2, hl]

/-- Witness for C7: the missing payload scenario of the spec at the bread
lesson state. -/
theorem C7_handleListen_failure_witness :
    (handleListen breadState .missingPayload).error ≠ none ∧
    (handleListen breadState .missingPayload).isAudioLoading = false ∧
    (handleListen breadState .missingPayload).isAudioPlaying = false :=
  C7_handleListen_failure breadState breadLesson .missingPayload rfl rfl rfl
    rfl

/-- C8: handleAnswerChange is a no-op once results are shown; before that it
replaces exactly the chosen entry of userAnswers and leaves every other
entry and all other exercise state unchanged. -/
theorem C8_handleAnswerChange (s : AppState) (index : Nat) (value : String) :
    (s.showResults = true → handleAnswerChange s index value = s) ∧
    (s.showResults = false → index < s.userAnswers.length →
      (handleAnswerChange s index value).userAnswers[index]? = some value ∧
      (∀ j, j ≠ index →
        (handleAnswerChange s index value).userAnswers[j]? =
          s.userAnswers[j]?) ∧
      (handleAnswerChange s index value).isCorrect = s.isCorrect ∧
      (handleAnswerChange s index value).showResults = s.showResults ∧
      (handleAnswerChange s index value).shuffledWords = s.shuffledWords ∧
      (handleAnswerChange s index value).lesson = s.lesson ∧
      (handleAnswerChange s index value).error = s.error ∧
      (handleAnswerChange s index value).nextTopicCooldown =
        s.nextTopicCooldown) := by
  constructor
  · intro h; simp [handleAnswerChange, h]
  · intro h hidx
    refine ⟨?_, ?_, ?_, ?_, ?_, ?_, ?_, ?_⟩ <;>
      simp [handleAnswerChange, h]
    · exact List.getElem?_set_self hidx
    · intro j hj
      rw [List.getElem?_set_ne (by omega)]

/-- Witness for C8: replacing the single answer of the bread state. -/
theorem C8_handleAnswerChange_witness :
    (handleAnswerChange breadState 0 "rice").userAnswers[0]? = some "rice" :=
  ((C8_handleAnswerChange breadState 0 "rice").2 rfl (by decide)).1

/-- C10: a handleListen call with no lesson loaded returns at the entry
guard: the state — error, loading flag, playing flag and audio handle — is
unchanged, whatever the speech call would have produced. -/
theorem C10_handleListen_no_lesson (s : AppState) (o : TtsOutcome)
    (h : s.lesson = none) : handleListen s o = s := by
  simp [handleListen, h]

/-- Witness for C10 at the initial state, with an outcome that would have
succeeded. -/
theorem C10_handleListen_no_lesson_witness :
    handleListen initState (.success [1]) = initState :=
  C10_handleListen_no_lesson initState (.success [1]) rfl

end LingoBlanks
